import Mathlib

/-
Verification of the icon-generation core of esp32-m5dial-remote-controller.

The embedding follows the two generator scripts:
  * src/tools/generate_menu_icons.py     (Color, Canvas, blend_over, lerp, to_rgb565)
  * src/tools/generate_circular_icons.py (rgb_to_565, rgb565_to_rgb, blend_rgb,
    blend_565, distance, clamp, sample_pixel_aa, the coverage functions and the
    per-pixel icon pipeline)

Python integers are modelled as ℤ (or ℕ where the source value is a packed
bit pattern, which is always non-negative), Python floats appearing only in
exact arithmetic as ℚ, and general float geometry (sqrt, pi) as ℝ.  Python's
int() truncates toward zero, modelled by py_int / py_int_q below; Python's //
on non-negative integers is ℕ division; Python's % on floats is the
floor-mod, modelled by fmod.
-/

set_option maxRecDepth 8000
set_option linter.unusedVariables false

/-! ### generate_menu_icons.py: Color -/

/-- Color dataclass of generate_menu_icons.py: three integer channels. -/
structure Color where
  r : ℤ
  g : ℤ
  b : ℤ
deriving DecidableEq

/-- Color.clamp: clips each channel into [0, 255]. -/
def Color.clamp (c : Color) : Color :=
  ⟨max 0 (min 255 c.r), max 0 (min 255 c.g), max 0 (min 255 c.b)⟩

/-- Python int() on an exact rational: truncation toward zero. -/
def py_int_q (q : ℚ) : ℤ :=
  if q < 0 then -⌊-q⌋ else ⌊q⌋

/-- Color.to_rgb565 of generate_menu_icons.py:
clamp, then `r5 = (r*31+127)//255`, `g6 = (g*63+127)//255`, `b5 = (b*31+127)//255`
packed as `(r5 << 11) | (g6 << 5) | b5`.  After clamp every channel lies in
[0, 255], so the ℤ→ℕ coercion `.toNat` is exact and the `//` is ℕ division. -/
def Color.to_rgb565 (col : Color) : ℕ :=
  let c := col.clamp
  ((c.r.toNat * 31 + 127) / 255) <<< 11 |||
    ((c.g.toNat * 63 + 127) / 255) <<< 5 |||
    ((c.b.toNat * 31 + 127) / 255)

/-- Color.lerp of generate_menu_icons.py: clamps t to [0,1] then
interpolates each channel with int() truncation. -/
def Color.lerp (c other : Color) (t : ℚ) : Color :=
  let t' := max 0 (min 1 t)
  ⟨py_int_q ((c.r : ℚ) + ((other.r : ℚ) - (c.r : ℚ)) * t'),
   py_int_q ((c.g : ℚ) + ((other.g : ℚ) - (c.g : ℚ)) * t'),
   py_int_q ((c.b : ℚ) + ((other.b : ℚ) - (c.b : ℚ)) * t')⟩

/-- blend_over of generate_menu_icons.py: alpha-blend src over dst with the
alpha clamped to [0,1] and each resulting channel truncated by int(). -/
def blend_over (dst src : Color) (alpha : ℚ) : Color :=
  let a := max 0 (min 1 alpha)
  let inv := 1 - a
  ⟨py_int_q ((dst.r : ℚ) * inv + (src.r : ℚ) * a),
   py_int_q ((dst.g : ℚ) * inv + (src.g : ℚ) * a),
   py_int_q ((dst.b : ℚ) * inv + (src.b : ℚ) * a)⟩

/-! ### generate_menu_icons.py: Canvas -/

/-- Canvas of generate_menu_icons.py: width, height, background color and the
row-major pixel list. -/
structure Canvas where
  w : ℤ
  h : ℤ
  bg : Color
  px : List Color
deriving DecidableEq

/-- Canvas.__init__: `self.px = [bg for _ in range(w * h)]`.  Python's
range(n) is empty for n ≤ 0, which is exactly `(w * h).toNat` replications;
no dimension validation is performed. -/
def mkCanvas (w h : ℤ) (bg : Color) : Canvas :=
  ⟨w, h, bg, List.replicate (w * h).toNat bg⟩

/-- Canvas._idx: `y * self.w + x`. -/
def Canvas.idx (cv : Canvas) (x y : ℤ) : ℤ :=
  y * cv.w + x

/-- The bounds test `0 <= x < self.w and 0 <= y < self.h` shared by
Canvas.set / Canvas.get / Canvas.seta. -/
def Canvas.inBounds (cv : Canvas) (x y : ℤ) : Prop :=
  0 ≤ x ∧ x < cv.w ∧ 0 ≤ y ∧ y < cv.h

instance (cv : Canvas) (x y : ℤ) : Decidable (cv.inBounds x y) := by
  unfold Canvas.inBounds
  infer_instance

/-- Canvas.set: writes the color if in bounds, otherwise does nothing. -/
def Canvas.set (cv : Canvas) (x y : ℤ) (c : Color) : Canvas :=
  if cv.inBounds x y then { cv with px := cv.px.set (cv.idx x y).toNat c } else cv

/-- Canvas.get: the stored pixel if in bounds, otherwise the background
color.  For canvases produced by Canvas.__init__ the index is always inside
the list whenever the bounds test holds, so the getD default is never
reached; it only makes the embedding total. -/
def Canvas.get (cv : Canvas) (x y : ℤ) : Color :=
  if cv.inBounds x y then cv.px.getD (cv.idx x y).toNat cv.bg else cv.bg

/-- Canvas.seta: alpha-blend a color onto the stored pixel if in bounds,
otherwise do nothing.  The read of `self.px[idx]` is modelled with the same
always-in-range getD as Canvas.get. -/
def Canvas.seta (cv : Canvas) (x y : ℤ) (c : Color) (a : ℚ) : Canvas :=
  if cv.inBounds x y then
    { cv with
      px := cv.px.set (cv.idx x y).toNat
        (blend_over (cv.px.getD (cv.idx x y).toNat cv.bg) c a) }
  else cv

/-- A point-drawing operation on a Canvas: every drawing primitive of
generate_menu_icons.py mutates the canvas only through Canvas.set and
Canvas.seta, so a drawing run is a sequence of these. -/
inductive DrawOp where
  | set (x y : ℤ) (c : Color)
  | seta (x y : ℤ) (c : Color) (a : ℚ)
deriving DecidableEq

/-- The color payload of a drawing operation. -/
def DrawOp.color : DrawOp → Color
  | .set _ _ c => c
  | .seta _ _ c _ => c

/-- Execute one drawing operation. -/
def Canvas.apply (cv : Canvas) : DrawOp → Canvas
  | .set x y c => cv.set x y c
  | .seta x y c a => cv.seta x y c a

/-- Execute a sequence of drawing operations left to right. -/
def Canvas.applyOps (cv : Canvas) (ops : List DrawOp) : Canvas :=
  ops.foldl Canvas.apply cv

/-- All three channels lie in [0, 255]. -/
def Color.InRange (c : Color) : Prop :=
  0 ≤ c.r ∧ c.r ≤ 255 ∧ 0 ≤ c.g ∧ c.g ≤ 255 ∧ 0 ≤ c.b ∧ c.b ≤ 255

instance (c : Color) : Decidable c.InRange := by
  unfold Color.InRange
  infer_instance

/-! ### generate_circular_icons.py: packed-color conversions -/

/-- rgb_to_565 of generate_circular_icons.py:
`((r & 0xF8) << 8) | ((g & 0xFC) << 3) | (b >> 3)` — note that this
conversion truncates the low-order channel bits. -/
def rgb_to_565 (r g b : ℕ) : ℕ :=
  ((r &&& 0xF8) <<< 8) ||| ((g &&& 0xFC) <<< 3) ||| (b >>> 3)

/-- rgb565_to_rgb of generate_circular_icons.py: expand each 5/6/5 field by
a left shift of (8 - field width). -/
def rgb565_to_rgb (color : ℕ) : ℕ × ℕ × ℕ :=
  (((color >>> 11) &&& 0x1F) <<< 3,
   ((color >>> 5) &&& 0x3F) <<< 2,
   (color &&& 0x1F) <<< 3)

/-- Nearest integer to a/b with the half rounded up: ⌊(a + b/2)/b⌋ written
as (2a+b)/(2b).  For b = 255 a tie is impossible, so this is plain
round-to-nearest. -/
def round_nearest (a b : ℕ) : ℕ :=
  (2 * a + b) / (2 * b)

/-! ### generate_circular_icons.py: geometry, modelled exactly over ℝ -/

/-- ICON_SIZE constant of generate_circular_icons.py. -/
def ICON_SIZE : ℕ := 42

/-- AA_SAMPLES constant of generate_circular_icons.py (4×4 sub-samples). -/
def AA_SAMPLES : ℕ := 4

/-- Python int() on a real: truncation toward zero. -/
noncomputable def py_int (x : ℝ) : ℤ :=
  if x < 0 then -⌊-x⌋ else ⌊x⌋

/-- blend_rgb of generate_circular_icons.py: per-channel
`int(fg * alpha + bg * (1 - alpha))`.  At every call site the channels come
from rgb565_to_rgb and alpha lies in [0, 1], so each result is nonnegative
and the final ℤ→ℕ coercion is exact. -/
noncomputable def blend_rgb (fg bg : ℕ × ℕ × ℕ) (alpha : ℝ) : ℕ × ℕ × ℕ :=
  ((py_int ((fg.1 : ℝ) * alpha + (bg.1 : ℝ) * (1 - alpha))).toNat,
   (py_int ((fg.2.1 : ℝ) * alpha + (bg.2.1 : ℝ) * (1 - alpha))).toNat,
   (py_int ((fg.2.2 : ℝ) * alpha + (bg.2.2 : ℝ) * (1 - alpha))).toNat)

/-- blend_565 of generate_circular_icons.py: expand both packed colors,
blend in 8-bit space, repack. -/
noncomputable def blend_565 (fg bg : ℕ) (alpha : ℝ) : ℕ :=
  let fg_rgb := rgb565_to_rgb fg
  let bg_rgb := rgb565_to_rgb bg
  let result_rgb := blend_rgb fg_rgb bg_rgb alpha
  rgb_to_565 result_rgb.1 result_rgb.2.1 result_rgb.2.2

/-- distance of generate_circular_icons.py (Euclidean). -/
noncomputable def distance (x1 y1 x2 y2 : ℝ) : ℝ :=
  Real.sqrt ((x2 - x1) ^ 2 + (y2 - y1) ^ 2)

/-- clamp of generate_circular_icons.py: `max(min_val, min(max_val, val))`.
Every call site uses the default bounds 0.0 and 1.0, passed explicitly
here. -/
noncomputable def clamp (val min_val max_val : ℝ) : ℝ :=
  max min_val (min max_val val)

/-- sample_pixel_aa of generate_circular_icons.py: evaluate the coverage
function at a 4×4 grid of sub-pixel sample points (offset half a sub-cell
from the pixel corner) and average; the size argument is carried but, as in
the source, unused. -/
noncomputable def sample_pixel_aa (x y : ℤ) (size : ℕ) (shape_func : ℝ → ℝ → ℝ) : ℝ :=
  let step : ℝ := 1 / (AA_SAMPLES : ℝ)
  let offset : ℝ := step / 2
  (∑ sy ∈ Finset.range AA_SAMPLES, ∑ sx ∈ Finset.range AA_SAMPLES,
      shape_func ((x : ℝ) + offset + (sx : ℝ) * step) ((y : ℝ) + offset + (sy : ℝ) * step)) /
    ((AA_SAMPLES : ℝ) * (AA_SAMPLES : ℝ))

/-- circle_coverage, the nested coverage function of
generate_circle_background: full coverage inside radius-0.5, zero outside
radius+0.5, linear ramp between. -/
noncomputable def circle_coverage (size : ℕ) (x y : ℝ) : ℝ :=
  let cx : ℝ := (size : ℝ) / 2 - 0.5
  let cy : ℝ := (size : ℝ) / 2 - 0.5
  let radius : ℝ := (size : ℝ) / 2 - 0.5
  let dist := distance x y cx cy
  if dist ≤ radius - 0.5 then 1
  else if dist ≥ radius + 0.5 then 0
  else clamp (radius + 0.5 - dist) 0 1

/-- One iteration of the dot loop inside more_coverage (draw_more_symbol):
apply one dot's test to the accumulated coverage. -/
noncomputable def more_dot_step (x y : ℝ) (p : ℝ × ℝ) (coverage : ℝ) : ℝ :=
  let dot_r : ℝ := 3.2
  let dist := distance x y p.1 p.2
  if dist < dot_r + 0.5 then
    if dist ≤ dot_r - 0.5 then max coverage 1
    else max coverage (clamp (dot_r + 0.5 - dist) 0 1)
  else coverage

/-- more_coverage of draw_more_symbol: three dots of radius 3.2 spaced 10
apart on the middle row; the source's for-loop over the three dot positions
is unrolled left to right. -/
noncomputable def more_coverage (size : ℕ) (x y : ℝ) : ℝ :=
  let cx : ℝ := (size : ℝ) / 2 - 0.5
  let cy : ℝ := (size : ℝ) / 2 - 0.5
  let spacing : ℝ := 10
  more_dot_step x y (cx + spacing, cy)
    (more_dot_step x y (cx, cy)
      (more_dot_step x y (cx - spacing, cy) 0))

/-- The per-pixel body of generate_circle_background: super-sample the
circle coverage; coverage above 0.01 is blended onto the transparent color,
anything else stays transparent.  The full buffer is the row-major table of
these values. -/
noncomputable def circle_background_pixel (size : ℕ) (color transparent : ℕ) (x y : ℤ) : ℕ :=
  let coverage := sample_pixel_aa x y size (circle_coverage size)
  if coverage > 0.01 then blend_565 color transparent coverage else transparent

/-- The per-pixel body of draw_more_symbol: super-sample the dot coverage
and blend the foreground at coverage * 0.93 over the existing pixel. -/
noncomputable def draw_more_pixel (size : ℕ) (fg_color : ℕ) (prev : ℕ) (x y : ℤ) : ℕ :=
  let coverage := sample_pixel_aa x y size (more_coverage size)
  if coverage > 0.01 then blend_565 fg_color prev (coverage * 0.93) else prev

/-- generate_icon for IconDef("more", ICON_COLORS['gray'] = 0x5D7B, "more"):
the circular gray background over transparent 0x0000, then the white
(0xFFFF) dot-cluster symbol, per pixel. -/
noncomputable def more_icon_pixel (x y : ℤ) : ℕ :=
  draw_more_pixel ICON_SIZE 0xFFFF (circle_background_pixel ICON_SIZE 0x5D7B 0 x y) x y

/-- target_coverage, the nested coverage function of draw_target_symbol:
outer ring, inner ring, center dot and crosshairs accumulated sequentially
by max, exactly as in the source. -/
noncomputable def target_coverage (size : ℕ) (x y : ℝ) : ℝ :=
  let cx : ℝ := (size : ℝ) / 2 - 0.5
  let cy : ℝ := (size : ℝ) / 2 - 0.5
  let outer_r : ℝ := (size : ℝ) / 2 - 8
  let inner_r : ℝ := outer_r * 0.42
  let ring_width : ℝ := 2.0
  let center_r : ℝ := 2.5
  let crosshair_width : ℝ := 1.8
  let dist := distance x y cx cy
  let c0 : ℝ := 0
  let outer_dist := |dist - outer_r|
  let c1 := if outer_dist < ring_width then
      max c0 (clamp (1.0 - outer_dist / (ring_width * 0.5)) 0 1) else c0
  let inner_dist := |dist - inner_r|
  let c2 := if inner_dist < ring_width * 0.7 then
      max c1 (clamp (1.0 - inner_dist / (ring_width * 0.35)) 0 1) else c1
  let c3 := if dist < center_r then
      max c2 (clamp (1.0 - dist / center_r * 0.7) 0 1) else c2
  let gap_inner := inner_r + ring_width + 1
  let gap_outer := outer_r - ring_width - 1
  if gap_inner < dist ∧ dist < gap_outer then
    let x_dist := |x - cx|
    let c4 := if x_dist < crosshair_width then
        max c3 (clamp (1.0 - x_dist / crosshair_width) 0 1) else c3
    let y_dist := |y - cy|
    if y_dist < crosshair_width then
      max c4 (clamp (1.0 - y_dist / crosshair_width) 0 1) else c4
  else c3

/-- Python float %: the floor-mod x - y·⌊x / y⌋ (sign follows y). -/
noncomputable def fmod (x y : ℝ) : ℝ :=
  x - y * ⌊x / y⌋

/-- tooth_angle of gear_coverage: (2π) / num_teeth with num_teeth = 8. -/
noncomputable def tooth_angle : ℝ := 2 * Real.pi / 8

/-- The angle-normalization line of gear_coverage:
`normalized_angle = ((angle % tooth_angle) + tooth_angle) % tooth_angle`,
where angle is the atan2 result. -/
noncomputable def gear_normalized_angle (angle : ℝ) : ℝ :=
  fmod (fmod angle tooth_angle + tooth_angle) tooth_angle

/-- ray_angle of brightness_coverage: (2π) / num_rays with num_rays = 8. -/
noncomputable def ray_angle : ℝ := 2 * Real.pi / 8

/-- The angle-normalization line of brightness_coverage:
`normalized = ((angle % ray_angle) + ray_angle) % ray_angle`. -/
noncomputable def brightness_normalized_angle (angle : ℝ) : ℝ :=
  fmod (fmod angle ray_angle + ray_angle) ray_angle

/-- arc_angle of wifi_coverage: π * 0.75 (135 degrees). -/
noncomputable def wifi_arc_angle : ℝ := Real.pi * 0.75

/-- The angular gate of wifi_coverage: `angle_from_up = abs(angle + pi/2)`
followed by the test `angle_from_up < arc_angle / 2`, with angle the atan2
result.  Unlike gear and brightness, no modular reduction is performed. -/
noncomputable def wifi_in_arc (angle : ℝ) : Prop :=
  |angle + Real.pi / 2| < wifi_arc_angle / 2

/-! ### packing helper lemmas -/

theorem shiftLeft_lor_eq_add {x y : ℕ} (n : ℕ) (h : y < 2 ^ n) :
    x <<< n ||| y = x * 2 ^ n + y := by
  apply Nat.eq_of_testBit_eq
  intro i
  rcases Nat.lt_or_ge i n with hi | hi
  · rw [Nat.testBit_or, Nat.testBit_shiftLeft, mul_comm x (2 ^ n),
      Nat.testBit_mul_pow_two_add x h i, if_pos hi]
    have hni : ¬ (i ≥ n) := Nat.not_le.mpr hi
    simp [hni]
  · rw [Nat.testBit_or, Nat.testBit_shiftLeft, mul_comm x (2 ^ n),
      Nat.testBit_mul_pow_two_add x h i, if_neg (Nat.not_lt.mpr hi)]
    have hy : y.testBit i = false :=
      Nat.testBit_lt_two_pow (lt_of_lt_of_le h (Nat.pow_le_pow_right (by norm_num) hi))
    simp [hy, hi]

theorem pack565_eq (a b c : ℕ) (hb : b < 64) (hc : c < 32) :
    a <<< 11 ||| b <<< 5 ||| c = (a * 64 + b) * 32 + c := by
  have h1 : (b <<< 5 : ℕ) < 2 ^ 11 := by
    rw [Nat.shiftLeft_eq]
    norm_num
    omega
  have h2 : a <<< 11 ||| b <<< 5 = (a * 64 + b) <<< 5 := by
    rw [shiftLeft_lor_eq_add 11 h1, Nat.shiftLeft_eq, Nat.shiftLeft_eq]
    ring
  rw [h2, shiftLeft_lor_eq_add 5 (show c < 2 ^ 5 by omega)]
  ring

theorem pack565_red (a b c : ℕ) (hb : b < 64) (hc : c < 32) :
    (a <<< 11 ||| b <<< 5 ||| c) >>> 11 = a := by
  rw [pack565_eq a b c hb hc, Nat.shiftRight_eq_div_pow]
  norm_num
  omega

theorem pack565_green (a b c : ℕ) (hb : b < 64) (hc : c < 32) :
    ((a <<< 11 ||| b <<< 5 ||| c) >>> 5) &&& 63 = b := by
  rw [pack565_eq a b c hb hc, Nat.shiftRight_eq_div_pow]
  have h63 : (63 : ℕ) = 2 ^ 6 - 1 := by norm_num
  rw [h63, Nat.and_pow_two_sub_one_eq_mod]
  norm_num
  omega

theorem pack565_blue (a b c : ℕ) (hb : b < 64) (hc : c < 32) :
    (a <<< 11 ||| b <<< 5 ||| c) &&& 31 = c := by
  rw [pack565_eq a b c hb hc]
  have h31 : (31 : ℕ) = 2 ^ 5 - 1 := by norm_num
  rw [h31, Nat.and_pow_two_sub_one_eq_mod]
  norm_num
  omega

theorem rgb565_to_rgb_pack (a b c : ℕ) (ha : a < 32) (hb : b < 64) (hc : c < 32) :
    rgb565_to_rgb (a <<< 11 ||| b <<< 5 ||| c) = (a * 8, b * 4, c * 8) := by
  unfold rgb565_to_rgb
  rw [pack565_red a b c hb hc, pack565_green a b c hb hc, pack565_blue a b c hb hc]
  have h31 : (31 : ℕ) = 2 ^ 5 - 1 := by norm_num
  rw [h31, Nat.and_pow_two_sub_one_eq_mod, Nat.mod_eq_of_lt (by omega),
    Nat.shiftLeft_eq, Nat.shiftLeft_eq, Nat.shiftLeft_eq]

/-! ### clamp and field bounds -/

theorem Color.clamp_in_range (c : Color) : c.clamp.InRange := by
  unfold Color.InRange Color.clamp
  refine ⟨?_, ?_, ?_, ?_, ?_, ?_⟩ <;> simp

theorem red_error_aux :
    ∀ v : Fin 256, 8 * ((v.val * 31 + 127) / 255) ≤ v.val + 10 ∧
      v.val ≤ 8 * ((v.val * 31 + 127) / 255) + 10 := by decide

theorem green_error_aux :
    ∀ v : Fin 256, 4 * ((v.val * 63 + 127) / 255) ≤ v.val + 4 ∧
      v.val ≤ 4 * ((v.val * 63 + 127) / 255) + 4 := by decide

theorem round31_aux :
    ∀ v : Fin 256, (v.val * 31 + 127) / 255 = round_nearest (v.val * 31) 255 := by decide

theorem round63_aux :
    ∀ v : Fin 256, (v.val * 63 + 127) / 255 = round_nearest (v.val * 63) 255 := by decide

theorem clamp_eq_self {col : Color} (hr0 : 0 ≤ col.r) (hr1 : col.r ≤ 255)
    (hg0 : 0 ≤ col.g) (hg1 : col.g ≤ 255) (hb0 : 0 ≤ col.b) (hb1 : col.b ≤ 255) :
    col.clamp = col := by
  obtain ⟨r, g, b⟩ := col
  simp only [Color.clamp, Color.mk.injEq] at *
  refine ⟨?_, ?_, ?_⟩ <;> omega

theorem to_rgb565_expand (col : Color) :
    rgb565_to_rgb col.to_rgb565 =
      (((col.clamp.r.toNat * 31 + 127) / 255) * 8,
       ((col.clamp.g.toNat * 63 + 127) / 255) * 4,
       ((col.clamp.b.toNat * 31 + 127) / 255) * 8) := by
  obtain ⟨hr0, hr1, hg0, hg1, hb0, hb1⟩ := col.clamp_in_range
  simp only [Color.to_rgb565]
  exact rgb565_to_rgb_pack _ _ _ (by omega) (by omega) (by omega)

/-! ### C1 / C2 claim theorems -/

/-- C1 (counterexample): for the color (250, 250, 250) — already clamped —
packing with to_rgb565 and expanding with rgb565_to_rgb yields red channel
240, which differs from 250 by 10 > 4, so the claimed ±4 bound is false. -/
theorem rgb565_roundtrip_exceeds_four :
    ¬ (|((rgb565_to_rgb (Color.mk 250 250 250).to_rgb565).1 : ℤ) -
        (Color.mk 250 250 250).clamp.r| ≤ 4) := by decide

/-- C1 (amended): for every Color c, expanding the packed value differs from
c.clamp() by at most 10 in the red and blue channels and at most 4 in green
(these bounds are attained, e.g. at channel value 250 for red/blue). -/
theorem rgb565_roundtrip_error_bound (col : Color) :
    |((rgb565_to_rgb col.to_rgb565).1 : ℤ) - col.clamp.r| ≤ 10 ∧
    |((rgb565_to_rgb col.to_rgb565).2.1 : ℤ) - col.clamp.g| ≤ 4 ∧
    |((rgb565_to_rgb col.to_rgb565).2.2 : ℤ) - col.clamp.b| ≤ 10 := by
  obtain ⟨hr0, hr1, hg0, hg1, hb0, hb1⟩ := col.clamp_in_range
  rw [to_rgb565_expand col]
  have er := red_error_aux ⟨col.clamp.r.toNat, by omega⟩
  have eg := green_error_aux ⟨col.clamp.g.toNat, by omega⟩
  have eb := red_error_aux ⟨col.clamp.b.toNat, by omega⟩
  simp only at er eg eb
  refine ⟨?_, ?_, ?_⟩ <;> rw [abs_le] <;> constructor <;> push_cast <;> omega

/-- C2 (amended): for every Color whose channels already lie in [0, 255],
to_rgb565 of generate_menu_icons.py produces fields equal to the nearest
integer to channel * maxField / 255 — it rounds rather than truncates. -/
theorem to_rgb565_rounds (col : Color)
    (hr : 0 ≤ col.r ∧ col.r ≤ 255) (hg : 0 ≤ col.g ∧ col.g ≤ 255)
    (hb : 0 ≤ col.b ∧ col.b ≤ 255) :
    col.to_rgb565 >>> 11 = round_nearest (col.r.toNat * 31) 255 ∧
    (col.to_rgb565 >>> 5) &&& 63 = round_nearest (col.g.toNat * 63) 255 ∧
    col.to_rgb565 &&& 31 = round_nearest (col.b.toNat * 31) 255 := by
  obtain ⟨hr0, hr1⟩ := hr
  obtain ⟨hg0, hg1⟩ := hg
  obtain ⟨hb0, hb1⟩ := hb
  have hcl : col.clamp = col := clamp_eq_self hr0 hr1 hg0 hg1 hb0 hb1
  simp only [Color.to_rgb565, hcl]
  refine ⟨?_, ?_, ?_⟩
  · rw [pack565_red _ _ _ (by omega) (by omega)]
    exact round31_aux ⟨col.r.toNat, by omega⟩
  · rw [pack565_green _ _ _ (by omega) (by omega)]
    exact round63_aux ⟨col.g.toNat, by omega⟩
  · rw [pack565_blue _ _ _ (by omega) (by omega)]
    exact round31_aux ⟨col.b.toNat, by omega⟩

/-- C2 (counterexample): the other packer, rgb_to_565 of
generate_circular_icons.py, truncates: for channel value 7 its red field is
7 >> 3 = 0, while rounding 7 * 31 / 255 gives 1.  So the claim that the
5/6/5 compression always rounds is false for this cited implementation. -/
theorem rgb_to_565_truncates :
    (rgb_to_565 7 0 0) >>> 11 ≠ round_nearest (7 * 31) 255 := by decide

/-- C2 (witness): the amended rounding statement evaluated at the concrete
in-range color (10, 200, 255). -/
theorem to_rgb565_rounds_witness :
    ((0 : ℤ) ≤ 10 ∧ (10 : ℤ) ≤ 255) ∧ ((0 : ℤ) ≤ 200 ∧ (200 : ℤ) ≤ 255) ∧
    ((0 : ℤ) ≤ 255 ∧ (255 : ℤ) ≤ 255) ∧
    ((Color.mk 10 200 255).to_rgb565 >>> 11 =
        round_nearest ((Color.mk 10 200 255).r.toNat * 31) 255 ∧
     ((Color.mk 10 200 255).to_rgb565 >>> 5) &&& 63 =
        round_nearest ((Color.mk 10 200 255).g.toNat * 63) 255 ∧
     (Color.mk 10 200 255).to_rgb565 &&& 31 =
        round_nearest ((Color.mk 10 200 255).b.toNat * 31) 255) :=
  ⟨⟨by norm_num, by norm_num⟩, ⟨by norm_num, by norm_num⟩, ⟨by norm_num, by norm_num⟩,
    to_rgb565_rounds (Color.mk 10 200 255) ⟨by norm_num, by norm_num⟩
      ⟨by norm_num, by norm_num⟩ ⟨by norm_num, by norm_num⟩⟩

/-! ### Canvas helper lemmas -/

theorem py_int_q_intCast (n : ℤ) : py_int_q (n : ℚ) = n := by
  unfold py_int_q
  split
  · rw [show (-(n : ℚ)) = ((-n : ℤ) : ℚ) by push_cast; ring, Int.floor_intCast]
    ring
  · exact Int.floor_intCast n

theorem py_int_q_nonneg {q : ℚ} (h : 0 ≤ q) : 0 ≤ py_int_q q := by
  unfold py_int_q
  rw [if_neg (not_lt.mpr h)]
  exact Int.floor_nonneg.mpr h

theorem py_int_q_le {q : ℚ} {m : ℤ} (h0 : 0 ≤ q) (h : q ≤ (m : ℚ)) : py_int_q q ≤ m := by
  unfold py_int_q
  rw [if_neg (not_lt.mpr h0)]
  have := Int.floor_le_floor h
  simpa using this

theorem blend_over_alpha_zero (d s : Color) : blend_over d s 0 = d := by
  have hch : ∀ x y : ℤ,
      (x : ℚ) * (1 - max 0 (min 1 (0 : ℚ))) + (y : ℚ) * (max 0 (min 1 (0 : ℚ))) = (x : ℚ) := by
    intro x y
    norm_num
  simp only [blend_over, hch, py_int_q_intCast]

theorem blend_over_alpha_one (d s : Color) : blend_over d s 1 = s := by
  have hch : ∀ x y : ℤ,
      (x : ℚ) * (1 - max 0 (min 1 (1 : ℚ))) + (y : ℚ) * (max 0 (min 1 (1 : ℚ))) = (y : ℚ) := by
    intro x y
    norm_num
  simp only [blend_over, hch, py_int_q_intCast]

theorem idx_lt_of_inBounds {cv : Canvas} {x y : ℤ} (h : cv.inBounds x y)
    (hwf : cv.px.length = (cv.w * cv.h).toNat) :
    (cv.idx x y).toNat < cv.px.length := by
  obtain ⟨hx0, hx1, hy0, hy1⟩ := h
  unfold Canvas.idx
  rw [hwf]
  have h1 : y * cv.w + x < cv.w * cv.h := by
    nlinarith [mul_nonneg (by linarith : (0 : ℤ) ≤ cv.h - 1 - y) (by linarith : (0 : ℤ) ≤ cv.w)]
  have h2 : 0 ≤ y * cv.w + x := by
    have := mul_nonneg hy0 (by linarith : (0 : ℤ) ≤ cv.w)
    linarith
  set i := y * cv.w + x with hi
  set N := cv.w * cv.h with hN
  omega

theorem getD_set_self (l : List Color) (n : ℕ) (a d : Color) (h : n < l.length) :
    (l.set n a).getD n d = a := by
  rw [List.getD_eq_getElem?_getD, List.getElem?_set_self h]
  rfl

/-! ### C3 / C4 claim theorems -/

/-- C3: for every canvas and out-of-bounds coordinate, Canvas.set and
Canvas.seta leave the canvas unchanged and Canvas.get returns the background
color; all three operations are total functions in this embedding, matching
the exception-free Python code. -/
theorem out_of_bounds_ops_safe (cv : Canvas) (x y : ℤ) (c : Color) (a : ℚ)
    (h : ¬ cv.inBounds x y) :
    cv.set x y c = cv ∧ cv.seta x y c a = cv ∧ cv.get x y = cv.bg := by
  unfold Canvas.set Canvas.seta Canvas.get
  rw [if_neg h, if_neg h, if_neg h]
  exact ⟨rfl, rfl, rfl⟩

/-- C3 (witness): evaluated on a 2×2 canvas at the out-of-bounds point (-1, 0). -/
theorem out_of_bounds_ops_safe_witness :
    ¬ (mkCanvas 2 2 (Color.mk 1 2 3)).inBounds (-1) 0 ∧
    ((mkCanvas 2 2 (Color.mk 1 2 3)).set (-1) 0 (Color.mk 9 9 9) =
        mkCanvas 2 2 (Color.mk 1 2 3) ∧
     (mkCanvas 2 2 (Color.mk 1 2 3)).seta (-1) 0 (Color.mk 9 9 9) (1 / 2) =
        mkCanvas 2 2 (Color.mk 1 2 3) ∧
     (mkCanvas 2 2 (Color.mk 1 2 3)).get (-1) 0 = (mkCanvas 2 2 (Color.mk 1 2 3)).bg) :=
  ⟨by decide, out_of_bounds_ops_safe _ _ _ _ _ (by decide)⟩

/-- C4: on any in-bounds coordinate of a well-formed canvas, seta with alpha
0.0 leaves the pixel unchanged and seta with alpha 1.0 stores exactly the
given color. -/
theorem seta_extreme_alphas (cv : Canvas) (x y : ℤ) (c : Color)
    (hin : cv.inBounds x y) (hwf : cv.px.length = (cv.w * cv.h).toNat) :
    (cv.seta x y c 0).get x y = cv.get x y ∧ (cv.seta x y c 1).get x y = c := by
  have hidx := idx_lt_of_inBounds hin hwf
  obtain ⟨hx0, hx1, hy0, hy1⟩ := hin
  simp only [Canvas.idx] at hidx
  constructor
  · simp only [Canvas.seta, Canvas.get, Canvas.inBounds, Canvas.idx,
      if_pos (show (0 ≤ x ∧ x < cv.w ∧ 0 ≤ y ∧ y < cv.h) from ⟨hx0, hx1, hy0, hy1⟩)]
    rw [blend_over_alpha_zero, getD_set_self _ _ _ _ hidx]
  · simp only [Canvas.seta, Canvas.get, Canvas.inBounds, Canvas.idx,
      if_pos (show (0 ≤ x ∧ x < cv.w ∧ 0 ≤ y ∧ y < cv.h) from ⟨hx0, hx1, hy0, hy1⟩)]
    rw [blend_over_alpha_one, getD_set_self _ _ _ _ hidx]

/-- C4 (witness): evaluated on a fresh 2×2 canvas at the in-bounds point
(1, 0) with color (9, 8, 7). -/
theorem seta_extreme_alphas_witness :
    (mkCanvas 2 2 (Color.mk 0 0 0)).inBounds 1 0 ∧
    (mkCanvas 2 2 (Color.mk 0 0 0)).px.length =
      ((mkCanvas 2 2 (Color.mk 0 0 0)).w * (mkCanvas 2 2 (Color.mk 0 0 0)).h).toNat ∧
    (((mkCanvas 2 2 (Color.mk 0 0 0)).seta 1 0 (Color.mk 9 8 7) 0).get 1 0 =
        (mkCanvas 2 2 (Color.mk 0 0 0)).get 1 0 ∧
     ((mkCanvas 2 2 (Color.mk 0 0 0)).seta 1 0 (Color.mk 9 8 7) 1).get 1 0 =
        Color.mk 9 8 7) :=
  ⟨by decide, by decide, seta_extreme_alphas _ 1 0 _ (by decide) (by decide)⟩

/-! ### C7 claim theorems -/

/-- C7 (counterexample): Canvas(0, 5, bg) raises no error — the embedding of
Canvas.__init__ is a total function — and silently yields a canvas whose
pixel buffer is empty, contradicting the fail-fast claim. -/
theorem zero_width_canvas_constructs :
    (mkCanvas 0 5 (Color.mk 0 0 0)).px = [] ∧
    (mkCanvas 0 5 (Color.mk 0 0 0)).w = 0 ∧
    (mkCanvas 0 5 (Color.mk 0 0 0)).h = 5 := by decide

/-- C7 (amended): constructing a Canvas with a zero-or-negative width (and
nonnegative height) does not fail: Canvas.__init__ accepts the dimensions
unchanged and silently produces an empty pixel buffer, because
`range(w * h)` is empty. -/
theorem degenerate_canvas_silently_empty (w h : ℤ) (bg : Color)
    (hw : w ≤ 0) (hh : 0 ≤ h) :
    (mkCanvas w h bg).px = [] ∧ (mkCanvas w h bg).w = w ∧ (mkCanvas w h bg).h = h := by
  refine ⟨?_, rfl, rfl⟩
  have hwh : (w * h).toNat = 0 := by
    have h1 : w * h ≤ 0 := mul_nonpos_iff.mpr (Or.inr ⟨hw, hh⟩)
    omega
  show List.replicate (w * h).toNat bg = []
  rw [hwh]
  rfl

/-- C7 (witness): the amended statement evaluated at width 0, height 5. -/
theorem degenerate_canvas_silently_empty_witness :
    (0 : ℤ) ≤ 0 ∧ (0 : ℤ) ≤ 5 ∧
    ((mkCanvas 0 5 (Color.mk 7 7 7)).px = [] ∧
     (mkCanvas 0 5 (Color.mk 7 7 7)).w = 0 ∧
     (mkCanvas 0 5 (Color.mk 7 7 7)).h = 5) :=
  ⟨by decide, by decide,
    degenerate_canvas_silently_empty 0 5 (Color.mk 7 7 7) (by decide) (by decide)⟩

/-! ### C10 helper lemmas -/

theorem blend_channel_in_range {x y : ℤ} (a' : ℚ) (h0 : 0 ≤ a') (h1 : a' ≤ 1)
    (hx0 : 0 ≤ x) (hx1 : x ≤ 255) (hy0 : 0 ≤ y) (hy1 : y ≤ 255) :
    0 ≤ py_int_q ((x : ℚ) * (1 - a') + (y : ℚ) * a') ∧
      py_int_q ((x : ℚ) * (1 - a') + (y : ℚ) * a') ≤ 255 := by
  have hx0' : (0 : ℚ) ≤ (x : ℚ) := by exact_mod_cast hx0
  have hx1' : (x : ℚ) ≤ 255 := by exact_mod_cast hx1
  have hy0' : (0 : ℚ) ≤ (y : ℚ) := by exact_mod_cast hy0
  have hy1' : (y : ℚ) ≤ 255 := by exact_mod_cast hy1
  have hv0 : 0 ≤ (x : ℚ) * (1 - a') + (y : ℚ) * a' := by nlinarith
  have hv1 : (x : ℚ) * (1 - a') + (y : ℚ) * a' ≤ ((255 : ℤ) : ℚ) := by
    push_cast
    nlinarith
  exact ⟨py_int_q_nonneg hv0, py_int_q_le hv0 hv1⟩

theorem blend_over_in_range {d s : Color} (a : ℚ) (hd : d.InRange) (hs : s.InRange) :
    (blend_over d s a).InRange := by
  obtain ⟨hd1, hd2, hd3, hd4, hd5, hd6⟩ := hd
  obtain ⟨hs1, hs2, hs3, hs4, hs5, hs6⟩ := hs
  have ha0 : 0 ≤ max 0 (min 1 a) := le_max_left _ _
  have ha1 : max 0 (min 1 a) ≤ 1 := max_le (by norm_num) (min_le_left _ _)
  obtain ⟨hr0, hr1⟩ := blend_channel_in_range (x := d.r) (y := s.r) _ ha0 ha1 hd1 hd2 hs1 hs2
  obtain ⟨hg0, hg1⟩ := blend_channel_in_range (x := d.g) (y := s.g) _ ha0 ha1 hd3 hd4 hs3 hs4
  obtain ⟨hb0, hb1⟩ := blend_channel_in_range (x := d.b) (y := s.b) _ ha0 ha1 hd5 hd6 hs5 hs6
  exact ⟨hr0, hr1, hg0, hg1, hb0, hb1⟩

theorem getD_in_range {l : List Color} {bg : Color} (n : ℕ)
    (hl : ∀ p ∈ l, p.InRange) (hbg : bg.InRange) : (l.getD n bg).InRange := by
  rcases Nat.lt_or_ge n l.length with h | h
  · rw [List.getD_eq_getElem?_getD, List.getElem?_eq_getElem h]
    exact hl _ (List.getElem_mem h)
  · rw [List.getD_eq_getElem?_getD, List.getElem?_eq_none h]
    exact hbg

theorem apply_in_range {cv : Canvas} {op : DrawOp}
    (hbg : cv.bg.InRange) (hpx : ∀ p ∈ cv.px, p.InRange) (hop : op.color.InRange) :
    (cv.apply op).bg = cv.bg ∧ ∀ p ∈ (cv.apply op).px, p.InRange := by
  cases op with
  | set x y c =>
    simp only [DrawOp.color] at hop
    show (cv.set x y c).bg = cv.bg ∧ ∀ p ∈ (cv.set x y c).px, p.InRange
    unfold Canvas.set
    by_cases hin : cv.inBounds x y
    · rw [if_pos hin]
      refine ⟨rfl, fun p hp => ?_⟩
      rcases List.mem_or_eq_of_mem_set hp with h | h
      · exact hpx p h
      · exact h ▸ hop
    · rw [if_neg hin]
      exact ⟨rfl, hpx⟩
  | seta x y c a =>
    simp only [DrawOp.color] at hop
    show (cv.seta x y c a).bg = cv.bg ∧ ∀ p ∈ (cv.seta x y c a).px, p.InRange
    unfold Canvas.seta
    by_cases hin : cv.inBounds x y
    · rw [if_pos hin]
      refine ⟨rfl, fun p hp => ?_⟩
      rcases List.mem_or_eq_of_mem_set hp with h | h
      · exact hpx p h
      · exact h ▸ blend_over_in_range a (getD_in_range _ hpx hbg) hop
    · rw [if_neg hin]
      exact ⟨rfl, hpx⟩

/-! ### C10 claim theorem -/

/-- C10: if a canvas's background color and every pixel already stored are
in channel range [0, 255], and every color handed to Canvas.set /
Canvas.seta is in range, then after any sequence of point-drawing
operations every stored pixel is still in range — blend_over clamps its
alpha and truncates a convex combination, so it cannot escape the range. -/
theorem applyOps_channels_in_range (cv : Canvas) (ops : List DrawOp)
    (hbg : cv.bg.InRange) (hpx : ∀ p ∈ cv.px, p.InRange)
    (hops : ∀ op ∈ ops, op.color.InRange) :
    ∀ p ∈ (cv.applyOps ops).px, p.InRange := by
  induction ops generalizing cv with
  | nil => simpa [Canvas.applyOps] using hpx
  | cons op rest ih =>
    have hop := hops op (List.mem_cons_self _ _)
    have hrest : ∀ o ∈ rest, o.color.InRange := fun o ho => hops o (List.mem_cons_of_mem _ ho)
    obtain ⟨hbg', hpx'⟩ := apply_in_range hbg hpx hop
    have hfold : cv.applyOps (op :: rest) = (cv.apply op).applyOps rest := rfl
    rw [hfold]
    exact ih (cv.apply op) (hbg' ▸ hbg) hpx' hrest

/-- C10 (witness): evaluated on a fresh 1×1 canvas with one Canvas.set
operation of an in-range color. -/
theorem applyOps_channels_in_range_witness :
    (mkCanvas 1 1 (Color.mk 0 0 0)).bg.InRange ∧
    (∀ p ∈ (mkCanvas 1 1 (Color.mk 0 0 0)).px, p.InRange) ∧
    (∀ op ∈ [DrawOp.set 0 0 (Color.mk 10 20 30)], op.color.InRange) ∧
    (∀ p ∈ ((mkCanvas 1 1 (Color.mk 0 0 0)).applyOps
        [DrawOp.set 0 0 (Color.mk 10 20 30)]).px, p.InRange) := by
  refine ⟨by decide, ?_, ?_, ?_⟩
  · intro p hp
    simp only [mkCanvas, List.mem_replicate] at hp
    rw [hp.2]
    decide
  · intro op hop
    rw [List.mem_singleton] at hop
    rw [hop]
    decide
  · apply applyOps_channels_in_range
    · decide
    · intro p hp
      simp only [mkCanvas, List.mem_replicate] at hp
      rw [hp.2]
      decide
    · intro op hop
      rw [List.mem_singleton] at hop
      rw [hop]
      decide

/-! ### sampler and distance helper lemmas -/

theorem sample_pixel_aa_eq_const (x y : ℤ) (size : ℕ) (f : ℝ → ℝ → ℝ) (cst : ℝ)
    (h : ∀ u v : ℝ, (x : ℝ) + 1 / 8 ≤ u → u ≤ (x : ℝ) + 7 / 8 →
      (y : ℝ) + 1 / 8 ≤ v → v ≤ (y : ℝ) + 7 / 8 → f u v = cst) :
    sample_pixel_aa x y size f = cst := by
  have hA : ((AA_SAMPLES : ℕ) : ℝ) = 4 := by norm_num [AA_SAMPLES]
  have key : ∀ g : ℕ → ℕ → ℝ,
      (∀ i ∈ Finset.range AA_SAMPLES, ∀ j ∈ Finset.range AA_SAMPLES, g i j = cst) →
      (∑ sy ∈ Finset.range AA_SAMPLES, ∑ sx ∈ Finset.range AA_SAMPLES, g sy sx) /
        ((AA_SAMPLES : ℝ) * (AA_SAMPLES : ℝ)) = cst := by
    intro g hg
    rw [Finset.sum_congr rfl (fun sy hsy => Finset.sum_congr rfl (hg sy hsy))]
    simp only [Finset.sum_const, Finset.card_range, nsmul_eq_mul, hA, AA_SAMPLES]
    norm_num
    ring
  refine key (fun sy sx =>
      f ((x : ℝ) + (1 / (AA_SAMPLES : ℝ)) / 2 + (sx : ℝ) * (1 / (AA_SAMPLES : ℝ)))
        ((y : ℝ) + (1 / (AA_SAMPLES : ℝ)) / 2 + (sy : ℝ) * (1 / (AA_SAMPLES : ℝ))))
    (fun sy hsy sx hsx => ?_)
  have hsx1 : (sx : ℝ) ≤ 3 := by
    exact_mod_cast Nat.lt_succ_iff.mp (by simpa [AA_SAMPLES] using Finset.mem_range.mp hsx)
  have hsy1 : (sy : ℝ) ≤ 3 := by
    exact_mod_cast Nat.lt_succ_iff.mp (by simpa [AA_SAMPLES] using Finset.mem_range.mp hsy)
  have hsx0 : (0 : ℝ) ≤ (sx : ℝ) := Nat.cast_nonneg sx
  have hsy0 : (0 : ℝ) ≤ (sy : ℝ) := Nat.cast_nonneg sy
  apply h <;> rw [hA] <;> linarith

theorem distance_le_of_sq_le {x1 y1 x2 y2 t : ℝ} (ht : 0 ≤ t)
    (h : (x2 - x1) ^ 2 + (y2 - y1) ^ 2 ≤ t ^ 2) : distance x1 y1 x2 y2 ≤ t := by
  unfold distance
  exact Real.sqrt_le_iff.mpr ⟨ht, h⟩

theorem le_distance_of_sq_le {x1 y1 x2 y2 t : ℝ} (ht : 0 ≤ t)
    (h : t ^ 2 ≤ (x2 - x1) ^ 2 + (y2 - y1) ^ 2) : t ≤ distance x1 y1 x2 y2 := by
  unfold distance
  have h0 : (0 : ℝ) ≤ (x2 - x1) ^ 2 + (y2 - y1) ^ 2 := by positivity
  exact (Real.le_sqrt ht h0).mpr h

/-! ### C9 claim theorem -/

/-- C9: for every pixel coordinate, the anti-aliasing sampler applied to
the constant-1.0 coverage function yields exactly 1.0, and applied to the
constant-0.0 coverage function yields exactly 0.0. -/
theorem sample_pixel_aa_const (x y : ℤ) (size : ℕ) :
    sample_pixel_aa x y size (fun _ _ => (1 : ℝ)) = 1 ∧
    sample_pixel_aa x y size (fun _ _ => (0 : ℝ)) = 0 :=
  ⟨sample_pixel_aa_eq_const x y size _ 1 (fun _ _ _ _ _ _ => rfl),
   sample_pixel_aa_eq_const x y size _ 0 (fun _ _ _ _ _ _ => rfl)⟩

/-! ### floor-mod helper lemmas -/

theorem fmod_eq_fract (x : ℝ) {y : ℝ} (hy : y ≠ 0) : fmod x y = y * Int.fract (x / y) := by
  unfold fmod
  rw [Int.fract, mul_sub]
  congr 1
  field_simp

theorem fmod_nonneg (x : ℝ) {y : ℝ} (hy : 0 < y) : 0 ≤ fmod x y := by
  rw [fmod_eq_fract x hy.ne']
  exact mul_nonneg hy.le (Int.fract_nonneg _)

theorem fmod_lt (x : ℝ) {y : ℝ} (hy : 0 < y) : fmod x y < y := by
  rw [fmod_eq_fract x hy.ne']
  calc y * Int.fract (x / y) < y * 1 := mul_lt_mul_of_pos_left (Int.fract_lt_one _) hy
  _ = y := mul_one y

theorem fmod_add_int_mul (x : ℝ) {y : ℝ} (hy : y ≠ 0) (n : ℤ) :
    fmod (x + n * y) y = fmod x y := by
  unfold fmod
  have hdiv : (x + n * y) / y = x / y + n := by
    field_simp
  rw [hdiv, Int.floor_add_int]
  push_cast
  ring

theorem tooth_angle_pos : 0 < tooth_angle := by
  unfold tooth_angle
  positivity

theorem ray_angle_pos : 0 < ray_angle := by
  unfold ray_angle
  positivity

theorem gear_normalized_add_two_pi (θ : ℝ) :
    gear_normalized_angle (θ + 2 * Real.pi) = gear_normalized_angle θ := by
  unfold gear_normalized_angle
  have h8 : θ + 2 * Real.pi = θ + ((8 : ℤ) : ℝ) * tooth_angle := by
    unfold tooth_angle
    push_cast
    ring
  rw [h8, fmod_add_int_mul θ tooth_angle_pos.ne' 8]

theorem brightness_normalized_add_two_pi (θ : ℝ) :
    brightness_normalized_angle (θ + 2 * Real.pi) = brightness_normalized_angle θ := by
  unfold brightness_normalized_angle
  have h8 : θ + 2 * Real.pi = θ + ((8 : ℤ) : ℝ) * ray_angle := by
    unfold ray_angle
    push_cast
    ring
  rw [h8, fmod_add_int_mul θ ray_angle_pos.ne' 8]

theorem wifi_in_arc_up : wifi_in_arc (-(Real.pi / 2)) := by
  unfold wifi_in_arc wifi_arc_angle
  rw [show (-(Real.pi / 2) + Real.pi / 2) = 0 by ring, abs_zero]
  positivity

theorem wifi_in_arc_up_shifted : ¬ wifi_in_arc (-(Real.pi / 2) + 2 * Real.pi) := by
  unfold wifi_in_arc wifi_arc_angle
  have hpi := Real.pi_pos
  rw [show (-(Real.pi / 2) + 2 * Real.pi + Real.pi / 2) = 2 * Real.pi by ring,
    abs_of_pos (by positivity), not_lt]
  nlinarith

/-! ### C8 claim theorems -/

/-- C8 (counterexample): the wifi coverage function performs no floor-mod
reduction of its angle; its angular gate |θ + π/2| < arc_angle/2 is not
invariant under adding 2π — the straight-up direction passes the gate as
θ = -π/2 but fails it as θ = -π/2 + 2π, so the claim, which includes the
wifi function, is false. -/
theorem wifi_gate_not_periodic :
    wifi_in_arc (-(Real.pi / 2)) ∧ ¬ wifi_in_arc (-(Real.pi / 2) + 2 * Real.pi) :=
  ⟨wifi_in_arc_up, wifi_in_arc_up_shifted⟩

/-- C8 (amended): the gear and sun-ray (brightness) coverage functions
reduce the angle with floor-mod semantics — for every input angle the
normalized angle lies in [0, period) and is unchanged by replacing θ with
θ + 2π; the wifi coverage function, by contrast, performs no modular
reduction and its angular gate distinguishes θ = -π/2 from θ = -π/2 + 2π. -/
theorem angular_normalization_properties :
    (∀ θ : ℝ, 0 ≤ gear_normalized_angle θ ∧ gear_normalized_angle θ < tooth_angle ∧
      gear_normalized_angle (θ + 2 * Real.pi) = gear_normalized_angle θ) ∧
    (∀ θ : ℝ, 0 ≤ brightness_normalized_angle θ ∧
      brightness_normalized_angle θ < ray_angle ∧
      brightness_normalized_angle (θ + 2 * Real.pi) = brightness_normalized_angle θ) ∧
    (wifi_in_arc (-(Real.pi / 2)) ∧ ¬ wifi_in_arc (-(Real.pi / 2) + 2 * Real.pi)) := by
  refine ⟨fun θ => ⟨?_, ?_, gear_normalized_add_two_pi θ⟩,
    fun θ => ⟨?_, ?_, brightness_normalized_add_two_pi θ⟩,
    wifi_in_arc_up, wifi_in_arc_up_shifted⟩
  · exact fmod_nonneg _ tooth_angle_pos
  · exact fmod_lt _ tooth_angle_pos
  · exact fmod_nonneg _ ray_angle_pos
  · exact fmod_lt _ ray_angle_pos

/-! ### C6 helper: the target symbol's outer-ring ramp -/

theorem target_outer_ramp (d : ℝ) (h0 : 0 ≤ d) (h1 : d ≤ 1) :
    target_coverage 42 (20.5 + (13 + d)) 20.5 = 1 - d := by
  have h135 : (0 : ℝ) ≤ 13 + d := by linarith
  simp only [target_coverage, Nat.cast_ofNat]
  rw [show ((42 : ℝ) / 2 - 0.5) = 20.5 by norm_num,
    show ((42 : ℝ) / 2 - 8) = 13 by norm_num]
  have hdist : distance (20.5 + (13 + d)) 20.5 20.5 20.5 = 13 + d := by
    unfold distance
    rw [show ((20.5 : ℝ) - (20.5 + (13 + d))) ^ 2 + ((20.5 : ℝ) - 20.5) ^ 2 = (13 + d) ^ 2 by ring]
    exact Real.sqrt_sq h135
  rw [hdist]
  rw [show (13 + d - (13 : ℝ)) = d by ring, abs_of_nonneg h0]
  rw [if_pos (show d < (2.0 : ℝ) by norm_num; linarith)]
  rw [show (13 + d - (13 : ℝ) * 0.42) = d + 7.54 by norm_num; ring]
  rw [abs_of_nonneg (show (0 : ℝ) ≤ d + 7.54 by linarith)]
  rw [if_neg (show ¬ (d + 7.54 < (2.0 : ℝ) * 0.7) by norm_num; linarith)]
  rw [if_neg (show ¬ ((13 : ℝ) + d < 2.5) by norm_num; linarith)]
  rw [if_neg (show ¬ ((13 : ℝ) * 0.42 + 2.0 + 1 < 13 + d ∧ (13 : ℝ) + d < 13 - 2.0 - 1) from
    fun hc => absurd hc.2 (by norm_num; linarith))]
  unfold clamp
  rw [show ((2.0 : ℝ) * 0.5) = 1 by norm_num, div_one]
  rw [min_eq_right (show (1.0 : ℝ) - d ≤ 1 by norm_num; linarith),
    max_eq_right (show (0 : ℝ) ≤ 1.0 - d by norm_num; linarith),
    max_eq_right (show (0 : ℝ) ≤ 1.0 - d by norm_num; linarith)]
  norm_num

/-! ### C6 claim theorems -/

/-- C6 (counterexample): if the target symbol's outer-ring edge had a
half-pixel ramp, coverage would be 0 at every point more than 0.5 beyond
the ring's full-coverage radius (13); but on the horizontal axis the
coverage at radial offset 3/4 is 1/4 ≠ 0, so the half-pixel claim is
false — this ring's falloff is a full pixel wide. -/
theorem target_ramp_wider_than_half_pixel :
    ¬ (∀ d : ℝ, 1 / 2 < d → d ≤ 1 → target_coverage 42 (20.5 + (13 + d)) 20.5 = 0) := by
  intro hcl
  have h := hcl (3 / 4) (by norm_num) (by norm_num)
  have h2 := target_outer_ramp (3 / 4) (by norm_num) (by norm_num)
  rw [h] at h2
  norm_num at h2

/-- C6 (amended): feature falloffs vary per feature rather than all being
half a pixel: the target symbol's outer ring falls off linearly over a full
pixel — at radial offset d ∈ [0, 1] beyond the ring radius the coverage is
exactly 1 - d (so it is still 1/4 at d = 3/4, where a half-pixel ramp
would already be 0). -/
theorem target_coverage_outer_ring_full_pixel_ramp (d : ℝ) (h0 : 0 ≤ d) (h1 : d ≤ 1) :
    target_coverage 42 (20.5 + (13 + d)) 20.5 = 1 - d :=
  target_outer_ramp d h0 h1

/-- C6 (witness): the amended ramp statement evaluated at offset 3/4. -/
theorem target_coverage_outer_ring_full_pixel_ramp_witness :
    (0 : ℝ) ≤ 3 / 4 ∧ (3 / 4 : ℝ) ≤ 1 ∧
    target_coverage 42 (20.5 + (13 + 3 / 4)) 20.5 = 1 - 3 / 4 :=
  ⟨by norm_num, by norm_num,
    target_coverage_outer_ring_full_pixel_ramp (3 / 4) (by norm_num) (by norm_num)⟩

/-! ### C5 helper lemmas: coverage values at the probed pixels -/

theorem circle_coverage_one (u v : ℝ)
    (h : (20.5 - u) ^ 2 + (20.5 - v) ^ 2 ≤ (20 : ℝ) ^ 2) :
    circle_coverage 42 u v = 1 := by
  simp only [circle_coverage, Nat.cast_ofNat]
  rw [show ((42 : ℝ) / 2 - 0.5) = 20.5 by norm_num]
  have hd : distance u v 20.5 20.5 ≤ 20 := distance_le_of_sq_le (by norm_num) h
  rw [if_pos (show distance u v 20.5 20.5 ≤ 20.5 - 0.5 by norm_num; linarith)]

theorem circle_coverage_zero (u v : ℝ)
    (h : (21 : ℝ) ^ 2 ≤ (20.5 - u) ^ 2 + (20.5 - v) ^ 2) :
    circle_coverage 42 u v = 0 := by
  simp only [circle_coverage, Nat.cast_ofNat]
  rw [show ((42 : ℝ) / 2 - 0.5) = 20.5 by norm_num]
  have hd : (21 : ℝ) ≤ distance u v 20.5 20.5 := le_distance_of_sq_le (by norm_num) h
  rw [if_neg (not_le.mpr (show 20.5 - 0.5 < distance u v 20.5 20.5 by norm_num; linarith)),
    if_pos (show distance u v 20.5 20.5 ≥ 20.5 + 0.5 by norm_num; linarith)]

theorem more_dot_step_far (x y : ℝ) (p : ℝ × ℝ) (cov : ℝ)
    (h : (3.7 : ℝ) ^ 2 ≤ (p.1 - x) ^ 2 + (p.2 - y) ^ 2) :
    more_dot_step x y p cov = cov := by
  simp only [more_dot_step]
  have hd : (3.7 : ℝ) ≤ distance x y p.1 p.2 := le_distance_of_sq_le (by norm_num) h
  rw [if_neg (not_lt.mpr (show (3.2 : ℝ) + 0.5 ≤ distance x y p.1 p.2 by norm_num; linarith))]

theorem more_dot_step_inside (x y : ℝ) (p : ℝ × ℝ) (cov : ℝ)
    (h : (p.1 - x) ^ 2 + (p.2 - y) ^ 2 ≤ (2.7 : ℝ) ^ 2) :
    more_dot_step x y p cov = max cov 1 := by
  simp only [more_dot_step]
  have hd : distance x y p.1 p.2 ≤ 2.7 := distance_le_of_sq_le (by norm_num) h
  rw [if_pos (show distance x y p.1 p.2 < 3.2 + 0.5 by norm_num; linarith),
    if_pos (show distance x y p.1 p.2 ≤ 3.2 - 0.5 by norm_num; linarith)]

theorem more_coverage_center (u v : ℝ)
    (h1 : (3.7 : ℝ) ^ 2 ≤ (20.5 - 10 - u) ^ 2 + (20.5 - v) ^ 2)
    (h2 : (20.5 - u) ^ 2 + (20.5 - v) ^ 2 ≤ (2.7 : ℝ) ^ 2)
    (h3 : (3.7 : ℝ) ^ 2 ≤ (20.5 + 10 - u) ^ 2 + (20.5 - v) ^ 2) :
    more_coverage 42 u v = 1 := by
  simp only [more_coverage, Nat.cast_ofNat]
  rw [show ((42 : ℝ) / 2 - 0.5) = 20.5 by norm_num]
  rw [more_dot_step_far u v (20.5 - 10, 20.5) 0 h1]
  rw [more_dot_step_inside u v (20.5, 20.5) 0 h2]
  rw [more_dot_step_far u v (20.5 + 10, 20.5) (max 0 1) h3]
  norm_num

theorem more_coverage_zero (u v : ℝ)
    (h1 : (3.7 : ℝ) ^ 2 ≤ (20.5 - 10 - u) ^ 2 + (20.5 - v) ^ 2)
    (h2 : (3.7 : ℝ) ^ 2 ≤ (20.5 - u) ^ 2 + (20.5 - v) ^ 2)
    (h3 : (3.7 : ℝ) ^ 2 ≤ (20.5 + 10 - u) ^ 2 + (20.5 - v) ^ 2) :
    more_coverage 42 u v = 0 := by
  simp only [more_coverage, Nat.cast_ofNat]
  rw [show ((42 : ℝ) / 2 - 0.5) = 20.5 by norm_num]
  rw [more_dot_step_far u v (20.5 - 10, 20.5) 0 h1]
  rw [more_dot_step_far u v (20.5, 20.5) 0 h2]
  rw [more_dot_step_far u v (20.5 + 10, 20.5) 0 h3]

/-! ### C5 helper lemmas: blending at the probed pixels -/

theorem py_int_natCast (n : ℕ) : py_int ((n : ℕ) : ℝ) = n := by
  unfold py_int
  rw [if_neg (not_lt.mpr (by positivity))]
  exact Int.floor_natCast n

theorem blend_565_alpha_one (f b : ℕ) :
    blend_565 f b 1 =
      rgb_to_565 (rgb565_to_rgb f).1 (rgb565_to_rgb f).2.1 (rgb565_to_rgb f).2.2 := by
  have hch : ∀ c bb : ℕ, (c : ℝ) * 1 + (bb : ℝ) * (1 - (1 : ℝ)) = ((c : ℕ) : ℝ) :=
    fun c bb => by ring
  simp only [blend_565, blend_rgb, hch, py_int_natCast, Int.toNat_natCast]

theorem py_int_236 : py_int (236.8 : ℝ) = 236 := by
  unfold py_int
  rw [if_neg (by norm_num)]
  rw [Int.floor_eq_iff]
  norm_num

theorem py_int_246 : py_int (246.4 : ℝ) = 246 := by
  unfold py_int
  rw [if_neg (by norm_num)]
  rw [Int.floor_eq_iff]
  norm_num

theorem py_int_245 : py_int (245.76 : ℝ) = 245 := by
  unfold py_int
  rw [if_neg (by norm_num)]
  rw [Int.floor_eq_iff]
  norm_num

theorem blend_white_gray_093 : blend_565 0xFFFF 0x5D7B ((1 : ℝ) * 0.93) = 0xEFBE := by
  simp only [blend_565]
  rw [show rgb565_to_rgb 0xFFFF = (248, 252, 248) from by decide,
    show rgb565_to_rgb 0x5D7B = (88, 172, 216) from by decide]
  simp only [blend_rgb]
  rw [show ((248 : ℕ) : ℝ) * ((1 : ℝ) * 0.93) + ((88 : ℕ) : ℝ) * (1 - (1 : ℝ) * 0.93) = 236.8
      from by push_cast; norm_num,
    show ((252 : ℕ) : ℝ) * ((1 : ℝ) * 0.93) + ((172 : ℕ) : ℝ) * (1 - (1 : ℝ) * 0.93) = 246.4
      from by push_cast; norm_num,
    show ((248 : ℕ) : ℝ) * ((1 : ℝ) * 0.93) + ((216 : ℕ) : ℝ) * (1 - (1 : ℝ) * 0.93) = 245.76
      from by push_cast; norm_num]
  rw [py_int_236, py_int_246, py_int_245]
  decide

/-! ### C5 helper lemmas: the probed pixels of the more icon -/

theorem circle_bg_pixel_center : circle_background_pixel 42 0x5D7B 0 20 20 = 0x5D7B := by
  simp only [circle_background_pixel]
  have hcov : sample_pixel_aa 20 20 42 (circle_coverage 42) = 1 := by
    apply sample_pixel_aa_eq_const
    intro u v h1 h2 h3 h4
    push_cast at h1 h2 h3 h4
    apply circle_coverage_one
    nlinarith
  rw [hcov, if_pos (by norm_num : (1 : ℝ) > 0.01), blend_565_alpha_one]
  decide

theorem more_icon_center_val : more_icon_pixel 20 20 = 0xEFBE := by
  show draw_more_pixel 42 0xFFFF (circle_background_pixel 42 0x5D7B 0 20 20) 20 20 = 0xEFBE
  rw [circle_bg_pixel_center]
  simp only [draw_more_pixel]
  have hcov : sample_pixel_aa 20 20 42 (more_coverage 42) = 1 := by
    apply sample_pixel_aa_eq_const
    intro u v h1 h2 h3 h4
    push_cast at h1 h2 h3 h4
    apply more_coverage_center <;> nlinarith
  rw [hcov, if_pos (by norm_num : (1 : ℝ) > 0.01)]
  exact blend_white_gray_093

theorem more_icon_pixel_eq_zero (x y : ℤ)
    (hc : sample_pixel_aa x y 42 (circle_coverage 42) = 0)
    (hm : sample_pixel_aa x y 42 (more_coverage 42) = 0) :
    more_icon_pixel x y = 0 := by
  show draw_more_pixel 42 0xFFFF (circle_background_pixel 42 0x5D7B 0 x y) x y = 0
  simp only [circle_background_pixel, draw_more_pixel, hc, hm]
  norm_num

theorem more_icon_corner_00 : more_icon_pixel 0 0 = 0 := by
  apply more_icon_pixel_eq_zero
  · apply sample_pixel_aa_eq_const
    intro u v h1 h2 h3 h4
    push_cast at h1 h2 h3 h4
    apply circle_coverage_zero
    nlinarith
  · apply sample_pixel_aa_eq_const
    intro u v h1 h2 h3 h4
    push_cast at h1 h2 h3 h4
    apply more_coverage_zero <;> nlinarith

theorem more_icon_corner_41_0 : more_icon_pixel 41 0 = 0 := by
  apply more_icon_pixel_eq_zero
  · apply sample_pixel_aa_eq_const
    intro u v h1 h2 h3 h4
    push_cast at h1 h2 h3 h4
    apply circle_coverage_zero
    nlinarith
  · apply sample_pixel_aa_eq_const
    intro u v h1 h2 h3 h4
    push_cast at h1 h2 h3 h4
    apply more_coverage_zero <;> nlinarith

theorem more_icon_corner_0_41 : more_icon_pixel 0 41 = 0 := by
  apply more_icon_pixel_eq_zero
  · apply sample_pixel_aa_eq_const
    intro u v h1 h2 h3 h4
    push_cast at h1 h2 h3 h4
    apply circle_coverage_zero
    nlinarith
  · apply sample_pixel_aa_eq_const
    intro u v h1 h2 h3 h4
    push_cast at h1 h2 h3 h4
    apply more_coverage_zero <;> nlinarith

theorem more_icon_corner_41_41 : more_icon_pixel 41 41 = 0 := by
  apply more_icon_pixel_eq_zero
  · apply sample_pixel_aa_eq_const
    intro u v h1 h2 h3 h4
    push_cast at h1 h2 h3 h4
    apply circle_coverage_zero
    nlinarith
  · apply sample_pixel_aa_eq_const
    intro u v h1 h2 h3 h4
    push_cast at h1 h2 h3 h4
    apply more_coverage_zero <;> nlinarith

/-! ### C5 claim theorems -/

/-- C5 (counterexample): in the generated 42×42 more icon, the center pixel
(20, 20) is not the foreground color 0xFFFF (the symbol is composited at
opacity 0.93, yielding 0xEFBE), and the corner pixel (0, 0) is not the
background fill color 0x5D7B (it lies outside the circular background and
stays at the transparent value 0x0000). -/
theorem more_icon_claim_false :
    more_icon_pixel 20 20 ≠ 0xFFFF ∧ more_icon_pixel 0 0 ≠ 0x5D7B := by
  constructor
  · rw [more_icon_center_val]
    decide
  · rw [more_icon_corner_00]
    decide

/-- C5 (amended): generating the 42×42 more icon produces, at the center
pixel, the foreground white blended over the gray background at the symbol
opacity 0.93 — the packed value 0xEFBE, not pure foreground — and leaves
all four corner pixels at the transparent value 0x0000, outside the
circular background fill. -/
theorem more_icon_center_and_corners :
    more_icon_pixel 20 20 = 0xEFBE ∧
    more_icon_pixel 0 0 = 0 ∧ more_icon_pixel 41 0 = 0 ∧
    more_icon_pixel 0 41 = 0 ∧ more_icon_pixel 41 41 = 0 :=
  ⟨more_icon_center_val, more_icon_corner_00, more_icon_corner_41_0,
    more_icon_corner_0_41, more_icon_corner_41_41⟩
